import Mathlib

/-!
Verification of the HR resource query chatbot's core pipeline
(src/app/rag_system.py and src/app/main.py) against its specification.

Modelling conventions (shallow embedding):
- Python strings are `List Char` (named `Str`); Python `str.strip` is `pyStrip`,
  `str.lower` is `pyLower`, `str.split` on a comma is `pySplitComma`.
- Cosine similarity scores are rationals; the embedding model is external, so
  the ranker is parameterised by the list of similarity scores (one per roster
  row), exactly the `similarities` array of rag_system.py line 63.
- `np.argsort` (which numpy implements by insertion sort on the small arrays
  used here, hence a stable ascending sort) is modelled by Mathlib's stable
  `List.insertionSort` on the index list `List.range n`, comparing indices by
  their similarity value.
- The OpenAI chat-completion call of generate_response is an opaque external
  dependency; it is modelled by an `Option Str` argument: `some content` is a
  successful call returning `content`, `none` is any failure (the `except`
  branch of rag_system.py line 120).
- Loading the employees file (load_employees, rag_system.py lines 22-30) does
  I/O; the possible shapes of the source are an inductive `FileContent`, and
  uncaught Python exceptions are `Except.error` values.
-/

abbrev Str := List Char

/-- Apostrophe character, used inside several literal messages. -/
def apos : Char := Char.ofNat 39

/-- Python str.lower, character-wise. -/
def pyLower (s : Str) : Str := s.map Char.toLower

/-- Python str.strip: remove leading and trailing whitespace. -/
def pyStrip (s : Str) : Str :=
  ((s.dropWhile Char.isWhitespace).reverse.dropWhile Char.isWhitespace).reverse

/-- Decimal rendering of a natural number, as Python str(n). -/
def natStr (n : Nat) : Str := (Nat.repr n).toList

/-- Python "a,b,c".split on a comma; the empty string splits to one empty group. -/
def pySplitComma : Str → List Str
  | [] => [[]]
  | c :: rest =>
    if c = ',' then [] :: pySplitComma rest
    else
      match pySplitComma rest with
      | [] => [[c]]
      | g :: gs => (c :: g) :: gs

/-- Employee record, from src/app/models.py (Employee) and the JSON records
    consumed by rag_system.py. -/
structure Employee where
  id : Nat := 0
  name : Str := []
  skills : List Str := []
  experience_years : Nat := 0
  projects : List Str := []
  availability : Str := []
  email : Option Str := none
  department : Option Str := none
  location : Option Str := none
deriving DecidableEq, Inhabited, Repr

/-- create_employee_text (rag_system.py lines 32-46): render an employee record
    into the single searchable text used as embedding input.  The Python
    f-string is a triple-quoted block whose lines are indented by eight spaces,
    and the result is stripped of leading and trailing whitespace. -/
def create_employee_text (employee : Employee) : Str :=
  let skills_text := List.intercalate ", ".toList employee.skills
  let projects_text := List.intercalate ", ".toList employee.projects
  let text :=
    "\n        Name: ".toList ++ employee.name
    ++ "\n        Skills: ".toList ++ skills_text
    ++ "\n        Experience: ".toList ++ natStr employee.experience_years
    ++ " years".toList
    ++ "\n        Projects: ".toList ++ projects_text
    ++ "\n        Department: ".toList ++ employee.department.getD "Unknown".toList
    ++ "\n        Location: ".toList ++ employee.location.getD "Unknown".toList
    ++ "\n        Availability: ".toList ++ employee.availability
    ++ "\n        ".toList
  pyStrip text

/-- The similarity of roster index i, reading the similarities array
    (similarities[idx] in rag_system.py; indices produced by argsort are
    always in bounds, so the default is never reached). -/
def simAt (sims : List ℚ) (i : Nat) : ℚ := sims.getD i 0

/-- Comparison used by argsort: index i is placed no later than index j when
    its similarity does not exceed j's. -/
def valueLe (sims : List ℚ) (i j : Nat) : Prop := simAt sims i ≤ simAt sims j

instance (sims : List ℚ) : DecidableRel (valueLe sims) :=
  fun i j => inferInstanceAs (Decidable (simAt sims i ≤ simAt sims j))

/-- np.argsort(similarities) (rag_system.py line 66): the indices of the
    similarity array, stably sorted by ascending similarity.  numpy sorts
    arrays of this size by insertion sort, which `List.insertionSort` mirrors
    exactly (stability included). -/
def argsortAsc (sims : List ℚ) : List Nat :=
  List.insertionSort (valueLe sims) (List.range sims.length)

/-- np.argsort(similarities) reversed and truncated:
    np.argsort(similarities) followed by a full reversal and a take of the
    first top_k entries (rag_system.py line 66). -/
def topIndices (sims : List ℚ) (top_k : Nat) : List Nat :=
  ((argsortAsc sims).reverse).take top_k

/-- The loop of rag_system.py lines 68-71 keeps exactly the top indices whose
    similarity is strictly above the hardcoded 0.1 threshold. -/
def keptIndices (sims : List ℚ) (top_k : Nat) : List Nat :=
  (topIndices sims top_k).filter (fun idx => mkRat 1 10 < simAt sims idx)

/-- retrieve_relevant_employees (rag_system.py lines 57-73), parameterised by
    the similarity scores.  Returns (employee, score) pairs for the kept
    indices, in kept order.  The guard mirrors line 59: empty roster or an
    embeddings array with zero rows short-circuits to the empty list. -/
def retrieve_relevant_employees (employees : List Employee) (sims : List ℚ)
    (top_k : Nat := 5) : List (Employee × ℚ) :=
  if employees = [] ∨ sims = [] then []
  else (keptIndices sims top_k).map
    (fun idx => (employees.getD idx default, simAt sims idx))

/-- The fixed no-match message of rag_system.py lines 78 and 128. -/
def noMatchMsg : Str :=
  "I couldn".toList ++ [apos]
  ++ "t find any employees matching your criteria. Please try refining your search.".toList

/-- Rendering of a score as a percentage with one decimal place, modelling
    the Python format specifier for percent with one digit (the exact rounding
    mode of the float formatting is immaterial to every claim; only totality
    and determinism of this rendering matter). -/
def formatPercent (q : ℚ) : Str :=
  let m : ℤ := round (q * 1000)
  (if m < 0 then "-".toList else [])
  ++ natStr (m.natAbs / 10) ++ ".".toList ++ natStr (m.natAbs % 10) ++ "%".toList

/-- One numbered candidate block of the fallback template
    (rag_system.py lines 132-137). -/
def candidateLine (i : Nat) (p : Employee × ℚ) : Str :=
  "**".toList ++ natStr i ++ ". ".toList ++ p.1.name
  ++ "** (".toList ++ natStr p.1.experience_years ++ " years experience)\n".toList
  ++ "   • Skills: ".toList ++ List.intercalate ", ".toList p.1.skills ++ "\n".toList
  ++ "   • Recent Projects: ".toList ++ List.intercalate ", ".toList p.1.projects ++ "\n".toList
  ++ "   • Availability: ".toList ++ p.1.availability ++ "\n".toList
  ++ "   • Match Score: ".toList ++ formatPercent p.2 ++ "\n\n".toList

/-- generate_fallback_response (rag_system.py lines 125-140): deterministic
    template used when the generative call is unavailable. -/
def generate_fallback_response (query : Str) (relevant_employees : List (Employee × ℚ)) : Str :=
  if relevant_employees = [] then noMatchMsg
  else
    "Based on your query ".toList ++ [apos] ++ query ++ [apos]
    ++ ", I found ".toList ++ natStr relevant_employees.length
    ++ " relevant candidate(s):\n\n".toList
    ++ ((List.enumFrom 1 relevant_employees).map (fun ip => candidateLine ip.1 ip.2)).flatten
    ++ "Would you like more details about any of these candidates or help with scheduling interviews?".toList

/-- generate_response (rag_system.py lines 75-123): returns the no-match
    message on an empty candidate list before any generative call; otherwise
    returns the generative model's text when the call succeeds, and the
    deterministic fallback when it fails (the except branch at line 120). -/
def generate_response (query : Str) (relevant_employees : List (Employee × ℚ))
    (apiResult : Option Str) : Str :=
  if relevant_employees = [] then noMatchMsg
  else
    match apiResult with
    | some content => content
    | none => generate_fallback_response query relevant_employees

/-- Result dictionary of the /employees/search endpoint
    (main.py line 86): the filtered employees and their count. -/
structure SearchResult where
  employees : List Employee
  count : Nat
deriving DecidableEq, Repr

/-- search_employees (main.py lines 51-86).  Each optional query parameter is
    applied only when truthy in Python: a string parameter filters only when
    present and non-empty, the integer min_experience only when present and
    non-zero.  The four filters are applied in sequence in source order. -/
def search_employees (roster : List Employee) (skills : Option Str)
    (min_experience : Option ℤ) (availability : Option Str)
    (department : Option Str) : SearchResult :=
  let f0 := roster
  let f1 :=
    match skills with
    | none => f0
    | some s =>
      if s = [] then f0
      else
        let skill_list := (pySplitComma s).map (fun x => pyLower (pyStrip x))
        f0.filter (fun emp =>
          skill_list.any (fun skill => (emp.skills.map pyLower).contains (pyLower skill)))
  let f2 :=
    match min_experience with
    | none => f1
    | some n => if n = 0 then f1 else f1.filter (fun emp => n ≤ (emp.experience_years : ℤ))
  let f3 :=
    match availability with
    | none => f2
    | some a =>
      if a = [] then f2
      else f2.filter (fun emp => pyLower emp.availability = pyLower a)
  let f4 :=
    match department with
    | none => f3
    | some d =>
      if d = [] then f3
      else f3.filter (fun emp => pyLower (emp.department.getD []) = pyLower d)
  { employees := f4, count := f4.length }

/-- The skills predicate exactly as the source computes it (main.py lines
    62-66): some requested skill, stripped and lowercased, is *equal* to one
    of the employee's lowercased skills (Python list membership). -/
def exactSkillMatch (s : Str) (emp : Employee) : Bool :=
  ((pySplitComma s).map (fun x => pyLower (pyStrip x))).any
    (fun skill => (emp.skills.map pyLower).contains (pyLower skill))

/-- True when `needle` occurs contiguously inside `hay`. -/
def leadsWith : Str → Str → Bool
  | [], _ => true
  | _ :: _, [] => false
  | a :: as, b :: bs => a = b && leadsWith as bs

def strContains (needle hay : Str) : Bool :=
  (List.range (hay.length + 1)).any (fun i => leadsWith needle (hay.drop i))

/-- The skills predicate as the SPEC words it ("exact/substring matching on
    skills (any-of list), case-insensitive"): some requested skill, stripped
    and lowercased, is equal to or a substring of one of the employee's
    lowercased skills.  Stated only to compare the endpoint against the
    spec's wording. -/
def specSkillMatch (s : Str) (emp : Employee) : Bool :=
  ((pySplitComma s).map (fun x => pyLower (pyStrip x))).any
    (fun req => emp.skills.any
      (fun sk => pyLower sk = req || strContains req (pyLower sk)))

/-- The possible shapes of the employees source file consumed by
    load_employees (rag_system.py lines 22-30): the file may be absent,
    its content may fail to parse as JSON, the parsed JSON may lack the
    expected top-level employees key, or it may be well-formed and carry a
    list of employee records. -/
inductive FileContent where
  | missingFile
  | malformedJson
  | jsonWithoutKey
  | wellFormed (employees : List Employee)
deriving DecidableEq, Repr

/-- Uncaught Python exceptions escaping load_employees. -/
inductive LoadError where
  | jsonDecodeError
  | keyError
deriving DecidableEq, Repr

/-- load_employees (rag_system.py lines 22-30).  The try block opens the file
    and parses it; the sole except clause catches FileNotFoundError and
    returns the empty list.  A JSON parse failure (json.JSONDecodeError) and
    a missing top-level employees key (KeyError) are not caught and propagate
    to the caller. -/
def load_employees : FileContent → Except LoadError (List Employee)
  | .missingFile => .ok []
  | .malformedJson => .error .jsonDecodeError
  | .jsonWithoutKey => .error .keyError
  | .wellFormed employees => .ok employees

/-- The dictionary returned by process_query (rag_system.py lines 154-158). -/
structure QueryResult where
  response : Str
  relevant_employees : List Employee
  confidence_score : ℚ
deriving DecidableEq, Repr

/-- process_query (rag_system.py lines 142-158), parameterised by the
    similarity scores and the generative-call outcome. -/
def process_query (employees : List Employee) (sims : List ℚ) (query : Str)
    (apiResult : Option Str) : QueryResult :=
  let relevant := retrieve_relevant_employees employees sims 5
  let response := generate_response query relevant apiResult
  { response := response
    relevant_employees := relevant.map Prod.fst
    confidence_score :=
      match relevant with
      | [] => 0
      | p :: _ => p.2 }

/-! ## Ordering facts about the ranker -/

/-- Strict lexicographic order on indices under which a stable ascending
    argsort is sorted: strictly smaller similarity, or equal similarity with
    smaller roster index. -/
def lexAsc (sims : List ℚ) (i j : Nat) : Prop :=
  simAt sims i < simAt sims j ∨ (simAt sims i = simAt sims j ∧ i < j)

theorem orderedInsert_pairwise_lexAsc (sims : List ℚ) (i : Nat) :
    ∀ L : List Nat, L.Pairwise (lexAsc sims) → (∀ j ∈ L, i < j) →
      (List.orderedInsert (valueLe sims) i L).Pairwise (lexAsc sims) := by
  intro L
  induction L with
  | nil => intro _ _; simp [List.orderedInsert]
  | cons j L ih =>
    intro hp hlt
    rw [List.orderedInsert]
    by_cases h : valueLe sims i j
    · rw [if_pos h]
      have hij : lexAsc sims i j := by
        rcases lt_or_eq_of_le h with h' | h'
        · exact Or.inl h'
        · exact Or.inr ⟨h', hlt j (List.mem_cons_self j L)⟩
      refine List.Pairwise.cons ?_ hp
      intro k hk
      rcases List.mem_cons.mp hk with rfl | hkL
      · exact hij
      · have hjk : lexAsc sims j k := (List.pairwise_cons.mp hp).1 k hkL
        have hj : simAt sims j ≤ simAt sims k := by
          rcases hjk with h' | ⟨h', _⟩
          · exact le_of_lt h'
          · exact le_of_eq h'
        have hik : simAt sims i ≤ simAt sims k := le_trans h hj
        rcases lt_or_eq_of_le hik with h' | h'
        · exact Or.inl h'
        · exact Or.inr ⟨h', hlt k (List.mem_cons_of_mem j hkL)⟩
    · rw [if_neg h]
      have hji : lexAsc sims j i := by
        have : simAt sims j < simAt sims i := lt_of_not_le h
        exact Or.inl this
      refine List.Pairwise.cons ?_
        (ih (List.pairwise_cons.mp hp).2 (fun k hk => hlt k (List.mem_cons_of_mem j hk)))
      intro k hk
      rcases (List.mem_orderedInsert (valueLe sims)).mp hk with rfl | hkL
      · exact hji
      · exact (List.pairwise_cons.mp hp).1 k hkL

theorem insertionSort_pairwise_lexAsc (sims : List ℚ) :
    ∀ L : List Nat, L.Pairwise (· < ·) →
      (List.insertionSort (valueLe sims) L).Pairwise (lexAsc sims) := by
  intro L
  induction L with
  | nil => intro _; simp
  | cons i L ih =>
    intro hp
    rw [List.insertionSort]
    have hmem : ∀ j ∈ List.insertionSort (valueLe sims) L, i < j := by
      intro j hj
      exact (List.pairwise_cons.mp hp).1 j ((List.perm_insertionSort _ L).mem_iff.mp hj)
    exact orderedInsert_pairwise_lexAsc sims i _ (ih (List.pairwise_cons.mp hp).2) hmem

theorem argsortAsc_pairwise (sims : List ℚ) :
    (argsortAsc sims).Pairwise (lexAsc sims) :=
  insertionSort_pairwise_lexAsc sims _ (List.pairwise_lt_range _)

/-- Every pair of indices kept by the ranker is ordered by strictly
    descending similarity, with equal similarities ordered by strictly
    descending roster index. -/
theorem keptIndices_pairwise (sims : List ℚ) (k : Nat) :
    (keptIndices sims k).Pairwise (fun i j => lexAsc sims j i) := by
  have h1 : (argsortAsc sims).reverse.Pairwise (fun i j => lexAsc sims j i) :=
    List.pairwise_reverse.mpr (argsortAsc_pairwise sims)
  have h2 : (topIndices sims k).Pairwise (fun i j => lexAsc sims j i) :=
    h1.sublist (List.take_sublist k _)
  exact h2.sublist (List.filter_sublist _)

/-! ## Concrete records used in witnesses and counterexamples -/

def empA : Employee :=
  { id := 1, name := "Alice".toList, skills := ["Python".toList, "ML".toList],
    experience_years := 5, projects := ["Health AI".toList],
    availability := "available".toList }

def empB : Employee :=
  { id := 2, name := "Bob".toList, skills := ["React".toList],
    experience_years := 3, projects := ["Web Portal".toList],
    availability := "busy".toList }

/-- Claim C1 is false on the code: with two candidates of exactly equal
    similarity, retrieve_relevant_employees lists the HIGHER roster index
    first, because np.argsort sorts ascending with ties kept in roster order
    and the subsequent full reversal inverts tie groups.  Here roster index 0
    (empA) and index 1 (empB) both score one half, and the output starts with
    empB, not empA as the claim requires. -/
theorem C1_counterexample :
    retrieve_relevant_employees [empA, empB] [mkRat 1 2, mkRat 1 2] 5 =
      [(empB, mkRat 1 2), (empA, mkRat 1 2)]
    ∧ empA ≠ empB := by
  constructor
  · decide
  · decide

/-- Claim C1, amended: when two candidates have exactly equal similarity
    scores, the ranker lists them in REVERSE roster order (higher index
    first); its output is the kept index list mapped to (employee, score)
    pairs, and along that index list equal scores always place the larger
    index earlier. -/
theorem C1_equal_scores_reverse_roster_order :
    ∀ (employees : List Employee) (sims : List ℚ) (k : Nat),
      (keptIndices sims k).Pairwise (fun i j => simAt sims i = simAt sims j → j < i)
      ∧ retrieve_relevant_employees employees sims k =
          (if employees = [] ∨ sims = [] then []
           else (keptIndices sims k).map
             (fun idx => (employees.getD idx default, simAt sims idx))) := by
  intro employees sims k
  constructor
  · refine (keptIndices_pairwise sims k).imp ?_
    intro i j hji heq
    rcases hji with h' | ⟨_, h'⟩
    · exact absurd h' (by rw [heq]; exact lt_irrefl _)
    · exact h'
  · rfl

/-- Closed instance of the amended claim C1 at a concrete tie. -/
theorem C1_witness :
    (keptIndices [mkRat 1 2, mkRat 1 2] 5).Pairwise
      (fun i j => simAt [mkRat 1 2, mkRat 1 2] i = simAt [mkRat 1 2, mkRat 1 2] j → j < i)
    ∧ retrieve_relevant_employees [empA, empB] [mkRat 1 2, mkRat 1 2] 5 =
        (if [empA, empB] = ([] : List Employee) ∨ [mkRat 1 2, mkRat 1 2] = ([] : List ℚ) then []
         else (keptIndices [mkRat 1 2, mkRat 1 2] 5).map
           (fun idx => (([empA, empB] : List Employee).getD idx default,
             simAt [mkRat 1 2, mkRat 1 2] idx))) :=
  C1_equal_scores_reverse_roster_order [empA, empB] [mkRat 1 2, mkRat 1 2] 5

/-- Claim C2: the ranker takes at most top_k candidates and keeps only those
    whose similarity is strictly greater than the hardcoded threshold of one
    tenth; hence its output has at most top_k entries and every returned
    similarity exceeds the threshold, however few candidates survive. -/
theorem C2_topk_then_threshold :
    ∀ (employees : List Employee) (sims : List ℚ) (k : Nat),
      (retrieve_relevant_employees employees sims k).length ≤ k
      ∧ ∀ p ∈ retrieve_relevant_employees employees sims k, mkRat 1 10 < p.2 := by
  intro employees sims k
  unfold retrieve_relevant_employees
  by_cases h : employees = [] ∨ sims = []
  · rw [if_pos h]
    exact ⟨Nat.zero_le k, by intro p hp; simp at hp⟩
  · rw [if_neg h]
    constructor
    · rw [List.length_map]
      calc (keptIndices sims k).length
          ≤ (topIndices sims k).length := List.length_filter_le _ _
        _ ≤ k := by
            simp [topIndices]
    · intro p hp
      rcases List.mem_map.mp hp with ⟨idx, hidx, rfl⟩
      have hkept := (List.mem_filter.mp hidx).2
      simpa using of_decide_eq_true hkept

/-- Closed instance of claim C2 with one candidate scoring seven tenths. -/
theorem C2_witness :
    (retrieve_relevant_employees [empA] [mkRat 7 10] 5).length ≤ 5
    ∧ mkRat 1 10 < ((empA, mkRat 7 10) : Employee × ℚ).2 :=
  ⟨(C2_topk_then_threshold [empA] [mkRat 7 10] 5).1,
   (C2_topk_then_threshold [empA] [mkRat 7 10] 5).2 (empA, mkRat 7 10) (by decide)⟩

/-- The ranker output is pairwise ordered by non-increasing score. -/
theorem retrieve_pairwise_desc (employees : List Employee) (sims : List ℚ) (k : Nat) :
    (retrieve_relevant_employees employees sims k).Pairwise
      (fun p q => q.2 ≤ p.2) := by
  unfold retrieve_relevant_employees
  by_cases h : employees = [] ∨ sims = []
  · simp [h]
  · rw [if_neg h]
    refine List.pairwise_map.mpr ?_
    refine (keptIndices_pairwise sims k).imp ?_
    intro i j hji
    rcases hji with h' | ⟨h', _⟩
    · exact le_of_lt h'
    · exact le_of_eq h'

/-- Claim C3: the ranker's output is ordered by descending similarity score;
    in particular whenever one returned candidate's similarity strictly
    exceeds another's, the former appears earlier in the list. -/
theorem C3_sorted_descending :
    ∀ (employees : List Employee) (sims : List ℚ) (k : Nat),
      (retrieve_relevant_employees employees sims k).Pairwise
        (fun p q => q.2 ≤ p.2) :=
  fun employees sims k => retrieve_pairwise_desc employees sims k

/-- Claim C4: on an empty roster, process_query returns the empty employee
    list, confidence zero, and the fixed no-match message, for every query and
    every generative-call outcome; no similarity value is consulted (the
    result is the same for every similarity assignment). -/
theorem C4_empty_roster :
    ∀ (sims : List ℚ) (query : Str) (apiResult : Option Str),
      process_query [] sims query apiResult =
        { response := noMatchMsg, relevant_employees := [], confidence_score := 0 } := by
  intro sims query apiResult
  have h : retrieve_relevant_employees [] sims 5 = [] := by
    unfold retrieve_relevant_employees
    rw [if_pos (Or.inl rfl)]
  simp [process_query, generate_response, h]

/-- Claim C5: the confidence score of process_query equals the score of the
    first ranked candidate, is zero when no candidate passed the threshold,
    and bounds every returned candidate's score from above. -/
theorem C5_confidence_is_top_score :
    ∀ (employees : List Employee) (sims : List ℚ) (query : Str) (apiResult : Option Str),
      (retrieve_relevant_employees employees sims 5 = [] →
        (process_query employees sims query apiResult).confidence_score = 0)
      ∧ (∀ p rest, retrieve_relevant_employees employees sims 5 = p :: rest →
          (process_query employees sims query apiResult).confidence_score = p.2)
      ∧ (∀ p ∈ retrieve_relevant_employees employees sims 5,
          p.2 ≤ (process_query employees sims query apiResult).confidence_score) := by
  intro employees sims query apiResult
  refine ⟨?_, ?_, ?_⟩
  · intro h
    simp [process_query, h]
  · intro p rest h
    simp [process_query, h]
  · intro p hp
    have hsorted := retrieve_pairwise_desc employees sims 5
    cases h : retrieve_relevant_employees employees sims 5 with
    | nil => rw [h] at hp; simp at hp
    | cons q rest =>
      rw [h] at hp hsorted
      have hconf : (process_query employees sims query apiResult).confidence_score = q.2 := by
        simp [process_query, h]
      rw [hconf]
      rcases List.mem_cons.mp hp with rfl | hrest
      · exact le_refl _
      · exact (List.pairwise_cons.mp hsorted).1 p hrest

/-- Closed instance of claim C5 at a one-candidate roster. -/
theorem C5_witness :
    (process_query [empA] [mkRat 7 10] "Q".toList none).confidence_score =
      ((empA, mkRat 7 10) : Employee × ℚ).2
    ∧ ((empA, mkRat 7 10) : Employee × ℚ).2 ≤
        (process_query [empA] [mkRat 7 10] "Q".toList none).confidence_score :=
  ⟨(C5_confidence_is_top_score [empA] [mkRat 7 10] "Q".toList none).2.1
      (empA, mkRat 7 10) [] (by decide),
   (C5_confidence_is_top_score [empA] [mkRat 7 10] "Q".toList none).2.2
      (empA, mkRat 7 10) (by decide)⟩

/-- Claim C6: when the generative call fails (modelled by apiResult = none)
    and the candidate list is non-empty, generate_response returns the
    deterministic fallback narrative instead of propagating the failure, and
    that narrative is a non-empty string.  Both functions are total Lean
    functions, so neither can raise. -/
theorem C6_fallback_on_generative_failure :
    ∀ (query : Str) (relevant : List (Employee × ℚ)), relevant ≠ [] →
      generate_response query relevant none = generate_fallback_response query relevant
      ∧ generate_fallback_response query relevant ≠ [] := by
  intro query relevant h
  constructor
  · unfold generate_response
    rw [if_neg h]
  · unfold generate_fallback_response
    rw [if_neg h]
    simp

/-- Closed instance of claim C6 at a one-candidate list. -/
theorem C6_witness :
    generate_response "Q".toList [(empA, mkRat 7 10)] none =
      generate_fallback_response "Q".toList [(empA, mkRat 7 10)]
    ∧ generate_fallback_response "Q".toList [(empA, mkRat 7 10)] ≠ [] :=
  C6_fallback_on_generative_failure "Q".toList [(empA, mkRat 7 10)] (by decide)

/-! ## Whitespace stripping facts, for the text projector -/

theorem dropWhile_ws_append :
    ∀ l1 l2 : Str, (∀ c ∈ l1, Char.isWhitespace c = true) →
      (l1 ++ l2).dropWhile Char.isWhitespace = l2.dropWhile Char.isWhitespace := by
  intro l1
  induction l1 with
  | nil => intro l2 _; rfl
  | cons c t ih =>
    intro l2 h
    rw [List.cons_append, List.dropWhile_cons, if_pos (h c (List.mem_cons_self c t))]
    exact ih l2 (fun d hd => h d (List.mem_cons_of_mem c hd))

theorem dropWhile_ws_cons (c : Char) (l : Str) (hc : Char.isWhitespace c = false) :
    (c :: l).dropWhile Char.isWhitespace = c :: l := by
  rw [List.dropWhile_cons, if_neg (by simp [hc])]

/-- A list untouched by a whitespace strip stays untouched when extended on
    the right. -/
theorem fix_append (l1 l2 : Str) (h : l1.dropWhile Char.isWhitespace = l1)
    (hne : l1 ≠ []) : (l1 ++ l2).dropWhile Char.isWhitespace = l1 ++ l2 := by
  cases l1 with
  | nil => exact absurd rfl hne
  | cons c t =>
    have hc : Char.isWhitespace c = false := by
      by_contra hcc
      have hcc' : Char.isWhitespace c = true := by simpa using hcc
      rw [List.dropWhile_cons, if_pos hcc'] at h
      have hlen := congrArg List.length h
      have hle := (List.dropWhile_sublist (l := t) (p := Char.isWhitespace)).length_le
      simp at hlen
      omega
    rw [List.cons_append, dropWhile_ws_cons _ _ hc]

/-- Stripping a string that is a non-whitespace core wrapped in whitespace
    yields exactly the core. -/
theorem pyStrip_ws_wrap (s wsl core wst : Str)
    (hs : s = wsl ++ (core ++ wst))
    (h1 : ∀ c ∈ wsl, Char.isWhitespace c = true)
    (h2 : ∀ c ∈ wst, Char.isWhitespace c = true)
    (hfix : core.dropWhile Char.isWhitespace = core)
    (hne : core ≠ [])
    (hrevfix : core.reverse.dropWhile Char.isWhitespace = core.reverse) :
    pyStrip s = core := by
  subst hs
  unfold pyStrip
  rw [dropWhile_ws_append _ _ h1, fix_append _ _ hfix hne, List.reverse_append]
  rw [dropWhile_ws_append _ _ (fun c hc => h2 c (List.mem_reverse.mp hc))]
  rw [hrevfix, List.reverse_reverse]

/-- Stripping the projector's rendered block keeps exactly the core from the
    Name label to the availability value, for any field contents whose
    availability ends in a non-whitespace character. -/
theorem pyStrip_projection (n sk ex pr dep loc av : Str)
    (hav : ∃ front c, av = front ++ [c] ∧ Char.isWhitespace c = false) :
    pyStrip ("\n        Name: ".toList ++ n
      ++ "\n        Skills: ".toList ++ sk
      ++ "\n        Experience: ".toList ++ ex ++ " years".toList
      ++ "\n        Projects: ".toList ++ pr
      ++ "\n        Department: ".toList ++ dep
      ++ "\n        Location: ".toList ++ loc
      ++ "\n        Availability: ".toList ++ av
      ++ "\n        ".toList) =
    "Name: ".toList ++ n
      ++ "\n        Skills: ".toList ++ sk
      ++ "\n        Experience: ".toList ++ ex ++ " years".toList
      ++ "\n        Projects: ".toList ++ pr
      ++ "\n        Department: ".toList ++ dep
      ++ "\n        Location: ".toList ++ loc
      ++ "\n        Availability: ".toList ++ av := by
  obtain ⟨front, cl, havv, hcl⟩ := hav
  have hrv : av.reverse = cl :: front.reverse := by rw [havv]; simp
  have f0 : ("Name: ".toList : Str).dropWhile Char.isWhitespace = "Name: ".toList := by decide
  have n0 : ("Name: ".toList : Str) ≠ [] := by decide
  have f1 := fix_append _ n f0 n0
  have n1 := List.append_ne_nil_of_left_ne_nil n0 n
  have f2 := fix_append _ "\n        Skills: ".toList f1 n1
  have n2 := List.append_ne_nil_of_left_ne_nil n1 "\n        Skills: ".toList
  have f3 := fix_append _ sk f2 n2
  have n3 := List.append_ne_nil_of_left_ne_nil n2 sk
  have f4 := fix_append _ "\n        Experience: ".toList f3 n3
  have n4 := List.append_ne_nil_of_left_ne_nil n3 "\n        Experience: ".toList
  have f5 := fix_append _ ex f4 n4
  have n5 := List.append_ne_nil_of_left_ne_nil n4 ex
  have f6 := fix_append _ " years".toList f5 n5
  have n6 := List.append_ne_nil_of_left_ne_nil n5 " years".toList
  have f7 := fix_append _ "\n        Projects: ".toList f6 n6
  have n7 := List.append_ne_nil_of_left_ne_nil n6 "\n        Projects: ".toList
  have f8 := fix_append _ pr f7 n7
  have n8 := List.append_ne_nil_of_left_ne_nil n7 pr
  have f9 := fix_append _ "\n        Department: ".toList f8 n8
  have n9 := List.append_ne_nil_of_left_ne_nil n8 "\n        Department: ".toList
  have f10 := fix_append _ dep f9 n9
  have n10 := List.append_ne_nil_of_left_ne_nil n9 dep
  have f11 := fix_append _ "\n        Location: ".toList f10 n10
  have n11 := List.append_ne_nil_of_left_ne_nil n10 "\n        Location: ".toList
  have f12 := fix_append _ loc f11 n11
  have n12 := List.append_ne_nil_of_left_ne_nil n11 loc
  have f13 := fix_append _ "\n        Availability: ".toList f12 n12
  have n13 := List.append_ne_nil_of_left_ne_nil n12 "\n        Availability: ".toList
  have f14 := fix_append _ av f13 n13
  have n14 := List.append_ne_nil_of_left_ne_nil n13 av
  refine pyStrip_ws_wrap _ "\n        ".toList _ "\n        ".toList ?_
    (by decide) (by decide) f14 n14 ?_
  · rw [show ("\n        Name: ".toList : Str) =
      "\n        ".toList ++ "Name: ".toList from by decide]
    simp [List.append_assoc]
  · rw [List.reverse_append]
    refine fix_append _ _ ?_ ?_
    · rw [hrv]
      exact dropWhile_ws_cons _ _ hcl
    · rw [hrv]
      simp

/-- Claim C7: create_employee_text is a pure function of the record (the
    second conjunct restates determinism, which is inherent to a Lean
    function), and its output consists of, in fixed order with fixed labels:
    name, comma-joined skills, experience in years, comma-joined projects,
    department with the Unknown placeholder when absent, location likewise,
    and availability.  The hypothesis states that the availability value ends
    in a non-whitespace character (true of every well-formed record; the
    final strip of the source would otherwise also trim the availability
    value itself). -/
theorem C7_deterministic_field_order (e : Employee)
    (h : ∃ front c, e.availability = front ++ [c] ∧ Char.isWhitespace c = false) :
    create_employee_text e =
      "Name: ".toList ++ e.name
      ++ "\n        Skills: ".toList ++ List.intercalate ", ".toList e.skills
      ++ "\n        Experience: ".toList ++ natStr e.experience_years ++ " years".toList
      ++ "\n        Projects: ".toList ++ List.intercalate ", ".toList e.projects
      ++ "\n        Department: ".toList ++ e.department.getD "Unknown".toList
      ++ "\n        Location: ".toList ++ e.location.getD "Unknown".toList
      ++ "\n        Availability: ".toList ++ e.availability
    ∧ create_employee_text e = create_employee_text e :=
  ⟨pyStrip_projection e.name (List.intercalate ", ".toList e.skills)
      (natStr e.experience_years) (List.intercalate ", ".toList e.projects)
      (e.department.getD "Unknown".toList) (e.location.getD "Unknown".toList)
      e.availability h,
   rfl⟩

/-- Closed instance of claim C7 at a concrete record. -/
theorem C7_witness :
    create_employee_text empA =
      "Name: ".toList ++ empA.name
      ++ "\n        Skills: ".toList ++ List.intercalate ", ".toList empA.skills
      ++ "\n        Experience: ".toList ++ natStr empA.experience_years ++ " years".toList
      ++ "\n        Projects: ".toList ++ List.intercalate ", ".toList empA.projects
      ++ "\n        Department: ".toList ++ empA.department.getD "Unknown".toList
      ++ "\n        Location: ".toList ++ empA.location.getD "Unknown".toList
      ++ "\n        Availability: ".toList ++ empA.availability
    ∧ create_employee_text empA = create_employee_text empA :=
  C7_deterministic_field_order empA ⟨"availabl".toList, 'e', by decide, by decide⟩

def empC : Employee :=
  { id := 3, name := "Carol".toList, skills := ["Python3".toList],
    experience_years := 4, projects := ["Data Pipeline".toList],
    availability := "available".toList }

/-- Claim C8 is false on the code: load_employees catches only a missing
    file; malformed JSON content propagates its parse error to the caller
    instead of yielding an empty roster. -/
theorem C8_counterexample :
    load_employees FileContent.malformedJson ≠ Except.ok [] := by
  intro h
  exact Except.noConfusion h

/-- Claim C8, amended: only a MISSING file is mapped to the empty roster;
    content that fails to parse as JSON raises json.JSONDecodeError and
    parsed content lacking the top-level employees key raises KeyError, both
    uncaught; well-formed content yields its employee list. -/
theorem C8_loader_behavior :
    load_employees FileContent.missingFile = Except.ok []
    ∧ load_employees FileContent.malformedJson = Except.error LoadError.jsonDecodeError
    ∧ load_employees FileContent.jsonWithoutKey = Except.error LoadError.keyError
    ∧ ∀ es, load_employees (FileContent.wellFormed es) = Except.ok es :=
  ⟨rfl, rfl, rfl, fun _ => rfl⟩

/-- Claim C9 is false on the code: the endpoint's skills filter tests Python
    list membership (exact equality after lowercasing), not substring
    matching.  The request python should match the skill Python3 under the
    claimed exact-or-substring semantics (specSkillMatch), yet the endpoint
    returns nobody. -/
theorem C9_counterexample :
    (search_employees [empC] (some "python".toList) none none none).employees = []
    ∧ specSkillMatch "python".toList empC = true := by
  constructor
  · decide
  · decide

/-- Claim C9, amended: the endpoint returns exactly the employees for which
    at least one requested skill (comma-split, stripped, lowercased) is
    EQUAL to one of the employee's lowercased skills; substring matches are
    not returned. -/
theorem C9_exact_match_semantics :
    ∀ (roster : List Employee) (s : Str), s ≠ [] →
      (search_employees roster (some s) none none none).employees =
        roster.filter (exactSkillMatch s)
      ∧ ∀ emp : Employee,
          emp ∈ (search_employees roster (some s) none none none).employees ↔
            emp ∈ roster ∧ ∃ req ∈ (pySplitComma s).map (fun x => pyLower (pyStrip x)),
              pyLower req ∈ emp.skills.map pyLower := by
  intro roster s hs
  have hemp : (search_employees roster (some s) none none none).employees =
      roster.filter (exactSkillMatch s) := by
    simp only [search_employees]
    rw [if_neg hs]
    rfl
  refine ⟨hemp, ?_⟩
  intro emp
  rw [hemp, List.mem_filter]
  simp [exactSkillMatch, List.any_eq_true, List.elem_iff, Function.comp]

/-- Closed instance of the amended claim C9. -/
theorem C9_witness :
    (search_employees [empA] (some "python".toList) none none none).employees =
      [empA].filter (exactSkillMatch "python".toList) :=
  (C9_exact_match_semantics [empA] "python".toList (by decide)).1

/-- Claim C10: passing min_experience equal to 0 applies no experience
    filter at all (Python zero is falsy), so the endpoint behaves exactly as
    if the parameter were omitted; for every positive min_experience only
    employees with experience_years at least that value are returned. -/
theorem C10_min_experience_truthiness :
    (∀ (roster : List Employee) (skills availability department : Option Str),
        search_employees roster skills (some 0) availability department =
          search_employees roster skills none availability department)
    ∧ ∀ (roster : List Employee) (n : ℤ), 0 < n →
        (search_employees roster none (some n) none none).employees =
          roster.filter (fun emp => decide (n ≤ (emp.experience_years : ℤ))) := by
  constructor
  · intro roster skills availability department
    simp [search_employees]
  · intro roster n hn
    simp [search_employees, hn.ne']

/-- Closed instance of claim C10: zero behaves as omitted, and a positive
    threshold filters by experience. -/
theorem C10_witness :
    search_employees [empA] none (some 0) none none =
      search_employees [empA] none none none none
    ∧ (search_employees [empA] none (some 2) none none).employees =
        [empA].filter (fun emp => decide ((2 : ℤ) ≤ (emp.experience_years : ℤ))) :=
  ⟨C10_min_experience_truthiness.1 [empA] none none none,
   C10_min_experience_truthiness.2 [empA] 2 (by decide)⟩
